import Mathlib

/-!
Shallow embedding of `src/app.py` (Flask HLS video downloader / converter) and
verification of the specification's claims about it.

Conventions:
  - Python machine time (`time.time()`) is modelled as a rational number.
  - Python strings are Lean `String`s; operations on them go through `String.data`
    (a `List Char`) so that everything reduces in the kernel.
  - Python exceptions are modelled with `Except`; the distinguished error values a
    claim cares about (`ValueError`, `ZeroDivisionError`) are the `PyErr` type.
  - The global dictionaries `tasks` and `progress_cache` are association lists.
-/

namespace VidDL

/-- Job status strings stored in `tasks[task_id]['status']`. -/
inductive Status where
  | pending
  | downloading
  | analyzing
  | ready_for_conversion
  | converting
  | completed
  | error
  deriving DecidableEq, Repr

/-- A status is non-terminal when it is neither `completed` nor `error` (spec section 4.1). -/
def nonTerminal : Status → Bool
  | .completed => false
  | .error => false
  | _ => true

/-- The transition edges the spec allows: the strict forward path of section 4.1 plus an
edge from every non-terminal status to `error`. -/
def allowedEdge : Status → Status → Bool
  | .pending, .downloading => true
  | .downloading, .analyzing => true
  | .analyzing, .ready_for_conversion => true
  | .ready_for_conversion, .converting => true
  | .converting, .completed => true
  | s, .error => nonTerminal s
  | _, _ => false

/-- A list of statuses is a legal trace when every consecutive pair is an allowed edge. -/
def chainOK : List Status → Bool
  | [] => true
  | [_] => true
  | a :: b :: rest => allowedEdge a b && chainOK (b :: rest)

/-- Events emitted on the socket (the push channel of spec section 6). -/
inductive Event where
  | progress_update (task_id stage : String) (progress : Int) (message : String)
  | download_complete (task_id : String) (message : String)
  | conversion_complete (task_id playlist_url message : String)
  | error_event (task_id message : String)
  deriving DecidableEq, Repr

/-- Python exception kinds the embedding distinguishes. -/
inductive PyErr where
  | valueError
  | zeroDivisionError
  deriving DecidableEq, Repr

/-- Lookup in an association list (Python dict read). -/
def cacheLookup : List (String × ℚ × Int) → String → Option (ℚ × Int)
  | [], _ => none
  | (k, v) :: rest, key => if k = key then some v else cacheLookup rest key

/-- Python dict assignment `progress_cache[key] = v`. -/
def cacheSet : List (String × ℚ × Int) → String → ℚ × Int → List (String × ℚ × Int)
  | [], key, v => [(key, v)]
  | (k, w) :: rest, key, v =>
    if k = key then (key, v) :: rest else (k, w) :: cacheSet rest key v

/-- Python `del progress_cache[key]` (guarded by a membership test at the call site). -/
def cacheErase : List (String × ℚ × Int) → String → List (String × ℚ × Int)
  | [], _ => []
  | (k, w) :: rest, key =>
    if k = key then cacheErase rest key else (k, w) :: cacheErase rest key

/-- PROGRESS_UPDATE_INTERVAL = 1.0 (src/app.py line 46). -/
def PROGRESS_UPDATE_INTERVAL : ℚ := 1

/-- cache_key = f"{task_id}_{stage}" (src/app.py line 51). -/
def cacheKey (task_id stage : String) : String := task_id ++ "_" ++ stage

/-- throttled_progress_update (src/app.py lines 48-70).  Returns the updated
`progress_cache` and the emitted `progress_update` event, if any.  An update is skipped
exactly when less than the interval has passed since the cache entry for the key was
written and the absolute progress change is below 5. -/
def throttled_progress_update (cache : List (String × ℚ × Int)) (now : ℚ)
    (task_id stage : String) (progress : Int) (message : String) :
    List (String × ℚ × Int) × Option Event :=
  let key := cacheKey task_id stage
  match cacheLookup cache key with
  | some (last_update_time, last_progress) =>
    if now - last_update_time < PROGRESS_UPDATE_INTERVAL ∧ (progress - last_progress).natAbs < 5 then
      (cache, none)
    else
      (cacheSet cache key (now, progress), some (.progress_update task_id stage progress message))
  | none =>
    (cacheSet cache key (now, progress), some (.progress_update task_id stage progress message))

/-- Python float true division of two ints: raises ZeroDivisionError on a zero denominator. -/
def pyDivQ (a b : Int) : Except PyErr ℚ :=
  if b = 0 then .error .zeroDivisionError else .ok ((a : ℚ) / (b : ℚ))

/-- Python float true division of two nonnegative ints. -/
def pyDivNat (a b : Nat) : Except PyErr ℚ :=
  if b = 0 then .error .zeroDivisionError else .ok ((a : ℚ) / (b : ℚ))

/-- Python `int()` truncation of a float: toward zero. -/
def pyIntTrunc (q : ℚ) : Int := if q < 0 then ⌈q⌉ else ⌊q⌋

/-- Digits of a decimal literal folded into a number. -/
def digitsToNat : List Char → Nat → Nat
  | [], acc => acc
  | c :: cs, acc => digitsToNat cs (acc * 10 + (c.toNat - 48))

/-- A nonempty all-digit character list parses; anything else does not. -/
def parseDigits (cs : List Char) : Option Nat :=
  if cs ≠ [] ∧ cs.all Char.isDigit then some (digitsToNat cs 0) else none

/-- Sign handling of Python `int(str)` after whitespace stripping. -/
def pyParseIntCore (cs : List Char) : Option Int :=
  match cs with
  | '-' :: rest => (parseDigits rest).map (fun n => -(n : Int))
  | '+' :: rest => (parseDigits rest).map (fun n => (n : Int))
  | _ => (parseDigits cs).map (fun n => (n : Int))

/-- Python `int(str)`: surrounding whitespace stripped, optional sign, decimal digits;
raises ValueError otherwise. -/
def pyParseInt (cs : List Char) : Except PyErr Int :=
  let cs := (cs.dropWhile Char.isWhitespace).reverse.dropWhile Char.isWhitespace |>.reverse
  match pyParseIntCore cs with
  | some v => .ok v
  | none => .error .valueError

/-- Round a rational to the nearest integer, ties to even (the rounding Python fixed-point
float formatting performs). -/
def roundHalfEven (q : ℚ) : Int :=
  let f := ⌊q⌋
  let r := q - (f : ℚ)
  if r < 1/2 then f
  else if 1/2 < r then f + 1
  else if f % 2 = 0 then f else f + 1

/-- Left-pad a digit string with zeros up to width `d`. -/
def padZeros (s : String) (d : Nat) : String :=
  if d ≤ s.length then s else String.mk (List.replicate (d - s.length) '0') ++ s

/-- Model of Python fixed-point formatting `f"{q:.df}"` on the exact rational value. -/
def formatFixed (q : ℚ) (d : Nat) : String :=
  let scaled := roundHalfEven (q * ((10 : ℚ) ^ d))
  if d = 0 then toString scaled
  else
    let sign := if scaled < 0 then "-" else ""
    let n := scaled.natAbs
    sign ++ toString (n / 10 ^ d) ++ "." ++ padZeros (toString (n % 10 ^ d)) d

/-- Video bitrate labelling in extract_stream_info (src/app.py lines 160-166):
`f"{bitrate/1000000:.1f} Mbps"` when `bitrate > 1000000`, else `f"{bitrate/1000:.0f} kbps"`. -/
def formatVideoBitrate (bitrate : Nat) : String :=
  if bitrate > 1000000 then formatFixed ((bitrate : ℚ) / 1000000) 1 ++ " Mbps"
  else formatFixed ((bitrate : ℚ) / 1000) 0 ++ " kbps"

/-- Python `str.split(sep)` for a one-character separator, accumulator form. -/
def splitOnCharAux (c : Char) : List Char → List Char → List (List Char)
  | [], acc => [acc.reverse]
  | x :: xs, acc =>
    if x = c then acc.reverse :: splitOnCharAux c xs [] else splitOnCharAux c xs (x :: acc)

/-- Python `str.split(sep)` for a one-character separator. -/
def splitOnChar (c : Char) (cs : List Char) : List (List Char) :=
  splitOnCharAux c cs []

/-- Frame-rate extraction from `r_frame_rate` in extract_stream_info (src/app.py lines
152-158).  `.ok none` models the `fps` field being left as `None`; `.ok (some s)` models
`video_info['fps'] = s`.  The guard order follows the source: the `'/' in fps_str and
fps_str != '0/0'` test, the two-element unpack of `split('/')` (a ValueError otherwise),
`int(den) != 0`, and only then the division and `:.2f` formatting. -/
def extract_fps (fps_str : String) : Except PyErr (Option String) :=
  if fps_str.data.contains '/' ∧ fps_str ≠ "0/0" then
    match splitOnChar '/' fps_str.data with
    | [ns, ds] =>
      match pyParseInt ds with
      | .error e => .error e
      | .ok den =>
        if den ≠ 0 then
          match pyParseInt ns with
          | .error e => .error e
          | .ok num =>
            match pyDivQ num den with
            | .error e => .error e
            | .ok q => .ok (some (formatFixed q 2))
        else .ok none
    | _ => .error .valueError
  else .ok none

/-- Caller-supplied `selected_streams`: per-kind lists of global stream indices. -/
structure Selection where
  video : List Int
  audio : List Int
  subtitle : List Int
  deriving DecidableEq, Repr

/-- Caller-supplied `total_stream_counts` (`.get('video', 0)` / `.get('audio', 0)`). -/
structure StreamCounts where
  video : Int
  audio : Int
  deriving DecidableEq, Repr

/-- The video `-map` loop of convert_to_hls (src/app.py lines 351-352). -/
def videoMapArgs : List Int → List String
  | [] => []
  | i :: rest => "-map" :: ("0:v:" ++ toString i) :: videoMapArgs rest

/-- The audio `-map` loop of convert_to_hls (src/app.py lines 355-356). -/
def audioMapArgs (video_stream_count : Int) : List Int → List String
  | [] => []
  | i :: rest =>
    "-map" :: ("0:a:" ++ toString (i - video_stream_count)) :: audioMapArgs video_stream_count rest

/-- The subtitle `-map` loop of convert_to_hls (src/app.py lines 359-360). -/
def subtitleMapArgs (video_stream_count audio_stream_count : Int) : List Int → List String
  | [] => []
  | i :: rest =>
    "-map" :: ("0:s:" ++ toString (i - video_stream_count - audio_stream_count)) ::
      subtitleMapArgs video_stream_count audio_stream_count rest

/-- Stream-map argument construction in convert_to_hls (src/app.py lines 345-364),
including the `['-map', '0:v', '-map', '0:a?']` fallback when nothing was selected. -/
def buildMapArgs (selected : Selection) (counts : StreamCounts) : List String :=
  let args := videoMapArgs selected.video ++ audioMapArgs counts.video selected.audio ++
    subtitleMapArgs counts.video counts.audio selected.subtitle
  if args = [] then ["-map", "0:v", "-map", "0:a?"] else args

/-- State threaded through the download chunk loop (src/app.py lines 261-277). -/
structure LoopState where
  downloaded_size : Nat
  last_progress_time : ℚ
  cache : List (String × ℚ × Int)
  events : List Event
  deriving DecidableEq, Repr

/-- One iteration of the download loop body (src/app.py lines 265-277) for a chunk of
`len` bytes arriving when `time.time()` reads `now`.  An empty chunk is skipped
(`if chunk:`).  The throttled progress call -- carrying both the computed percentage and
the `Downloaded: _ MB` byte-count message -- sits inside the `total_size > 0` guard. -/
def downloadChunkStep (task_id : String) (total_size : Nat) (ls : LoopState)
    (now : ℚ) (len : Nat) : Except PyErr LoopState :=
  if len = 0 then .ok ls
  else
    let ds := ls.downloaded_size + len
    if 1 ≤ now - ls.last_progress_time then
      if total_size > 0 then
        match pyDivNat ds total_size with
        | .error e => .error e
        | .ok q =>
          let progress := min (pyIntTrunc (q * 100)) 99
          let message := "Downloaded: " ++ toString (ds / (1024 * 1024)) ++ " MB"
          let (cache2, ev) :=
            throttled_progress_update ls.cache now task_id "downloading" progress message
          .ok ⟨ds, now, cache2, ls.events ++ ev.toList⟩
      else .ok ⟨ds, now, ls.cache, ls.events⟩
    else .ok ⟨ds, ls.last_progress_time, ls.cache, ls.events⟩

/-- The download chunk loop (src/app.py lines 265-277). -/
def downloadLoop (task_id : String) (total_size : Nat) :
    List (ℚ × Nat) → LoopState → Except PyErr LoopState
  | [], ls => .ok ls
  | (now, len) :: rest, ls =>
    match downloadChunkStep task_id total_size ls now len with
    | .error e => .error e
    | .ok ls2 => downloadLoop task_id total_size rest ls2

/-- Decidable equality for `Except` results. -/
def exceptDecEq {ε α : Type} [DecidableEq ε] [DecidableEq α] : DecidableEq (Except ε α)
  | .error a, .error b =>
    if h : a = b then .isTrue (by rw [h]) else .isFalse (by intro he; cases he; exact h rfl)
  | .error _, .ok _ => .isFalse (by intro h; cases h)
  | .ok _, .error _ => .isFalse (by intro h; cases h)
  | .ok a, .ok b =>
    if h : a = b then .isTrue (by rw [h]) else .isFalse (by intro he; cases he; exact h rfl)

instance {ε α : Type} [DecidableEq ε] [DecidableEq α] : DecidableEq (Except ε α) :=
  exceptDecEq

/-- The parsed probe output stored under `tasks[task_id]['streams']`.  Only the duration
matters to the orchestration layer; per-stream fields are handled by the pure extraction
functions above.  `extract_stream_info` stores `format_info.get('duration')`, a decimal
string or `None`; the later `float(...)` parse of it is modelled as the rational value
carried here, with `none` covering both an absent value and an unparseable one (the code
maps both to a duration of 0 through its `try/except`). -/
structure StreamData where
  duration : Option ℚ
  deriving DecidableEq, Repr

/-- One entry of the global `tasks` dict (src/app.py lines 493-499 and later writes). -/
structure Task where
  id : String
  url : String
  status : Status
  progress : Int
  created_at : ℚ
  downloaded_file : Option String := none
  filename : Option String := none
  streams : Option StreamData := none
  error_detail : Option String := none
  hls_path : Option String := none
  playlist_url : Option String := none
  deriving DecidableEq, Repr

/-- Python dict read `tasks.get(task_id)` / `task_id in tasks`. -/
def tasksLookup : List (String × Task) → String → Option Task
  | [], _ => none
  | (k, v) :: rest, key => if k = key then some v else tasksLookup rest key

/-- Python dict assignment `tasks[task_id] = v`. -/
def tasksSet : List (String × Task) → String → Task → List (String × Task)
  | [], key, v => [(key, v)]
  | (k, w) :: rest, key, v =>
    if k = key then (key, v) :: rest else (k, w) :: tasksSet rest key v

/-- Field mutation `tasks[task_id][...] = ...` on a present key. -/
def taskUpdate (tasks : List (String × Task)) (id : String) (f : Task → Task) :
    List (String × Task) :=
  match tasksLookup tasks id with
  | some t => tasksSet tasks id (f t)
  | none => tasks

/-- The whole of the application's mutable state: the `tasks` dict, the
`progress_cache` dict, the set of files existing on disk, and the log of socket events
emitted so far. -/
structure AppState where
  tasks : List (String × Task)
  progress_cache : List (String × ℚ × Int)
  disk : List String
  events : List Event
  deriving DecidableEq, Repr

/-- The empty state at interpreter start. -/
def initState : AppState := ⟨[], [], [], []⟩

/-- Apply a field mutation to a present task inside the application state. -/
def setTaskFields (st : AppState) (id : String) (f : Task → Task) : AppState :=
  { st with tasks := taskUpdate st.tasks id f }

/-- The `except` handler of download_file (src/app.py lines 301-308): record the error
detail on the task, transition it to `error`, and emit an `error` event. -/
def downloadErrorPath (st : AppState) (task_id msg : String) : AppState :=
  let st1 := setTaskFields st task_id (fun t => { t with status := .error, error_detail := some msg })
  { st1 with events := st1.events ++ [.error_event task_id ("Download/Analysis error: " ++ msg)] }

/-- Environment of one download_file run: everything the network and the probe decide. -/
structure DownloadEnv where
  /-- content-length from the HEAD request, with 0 for an absent header or a failed HEAD
  (src/app.py lines 243-247). -/
  total_size : Nat
  /-- whether `requests.get` plus `raise_for_status` succeeded (src/app.py lines 255-259). -/
  get_ok : Bool
  /-- the exception text when the GET fails. -/
  get_err : String
  /-- the streamed chunks: `time.time()` at the iteration and the chunk's byte count. -/
  chunks : List (ℚ × Nat)
  /-- `time.time()` before the loop (initial last_progress_time, src/app.py line 262). -/
  t0 : ℚ
  /-- `time.time()` at the `Analyzing streams...` update (src/app.py line 285). -/
  t_analyze : ℚ
  /-- result of extract_stream_info: parsed data, or `none` when the probe failed. -/
  probe : Option StreamData
  deriving DecidableEq, Repr

/-- download_file (src/app.py lines 234-308), the fetch-then-probe stage, run
sequentially.  Returns the new application state together with the ordered list of
values written to the task's `status` field. -/
def download_file (st : AppState) (task_id : String) (env : DownloadEnv) :
    AppState × List Status :=
  match tasksLookup st.tasks task_id with
  | none => (st, [])
  | some _ =>
    let st1 := setTaskFields st task_id (fun t => { t with status := .downloading, progress := 0 })
    let filepath := "uploads/" ++ task_id ++ ".mkv"
    if env.get_ok then
      match downloadLoop task_id env.total_size env.chunks ⟨0, env.t0, st1.progress_cache, []⟩ with
      | .error _ =>
        -- a ZeroDivisionError escaping the loop would land in the except handler; the
        -- lemmas below show this branch is unreachable
        (downloadErrorPath st1 task_id "division by zero", [.downloading, .error])
      | .ok ls =>
        let st2 : AppState :=
          ⟨st1.tasks, ls.cache, st1.disk ++ [filepath], st1.events ++ ls.events⟩
        let st3 := setTaskFields st2 task_id (fun t =>
          { t with downloaded_file := some filepath, filename := some (task_id ++ ".mkv"),
                   status := .analyzing, progress := 0 })
        let p := throttled_progress_update st3.progress_cache env.t_analyze task_id
          "analyzing" 50 "Analyzing streams..."
        let st4 := { st3 with progress_cache := p.1, events := st3.events ++ p.2.toList }
        match env.probe with
        | some si =>
          let st5 := setTaskFields st4 task_id (fun t =>
            { t with streams := some si, status := .ready_for_conversion })
          ({ st5 with events := st5.events ++
              [.download_complete task_id "Download complete. Please select streams to include."] },
           [.downloading, .analyzing, .ready_for_conversion])
        | none =>
          (downloadErrorPath st4 task_id "Failed to analyze video streams",
           [.downloading, .analyzing, .error])
    else
      (downloadErrorPath st1 task_id ("Failed to download: " ++ env.get_err),
       [.downloading, .error])

/-- State threaded through the ffmpeg stderr monitor loop (src/app.py lines 398-414). -/
structure MonState where
  last_progress_time : ℚ
  cache : List (String × ℚ × Int)
  events : List Event
  deriving DecidableEq, Repr

/-- The ffmpeg stderr monitor loop (src/app.py lines 398-414).  Each element of the list
is one line read from stderr, abstracted to the `time.time()` of the iteration and the
`parse_ffmpeg_progress` result for the line (the regex itself is not modelled; it only
feeds this `Option Int`). -/
def convertMonitorLoop (task_id : String) (duration_pos : Bool) :
    List (ℚ × Option Int) → MonState → MonState
  | [], ms => ms
  | (now, mark) :: rest, ms =>
    let ms2 :=
      if duration_pos then
        match mark with
        | some progress =>
          if 1 ≤ now - ms.last_progress_time then
            let p := throttled_progress_update ms.cache now task_id "converting" progress
              ("Converting: " ++ toString progress ++ "%")
            ⟨now, p.1, ms.events ++ p.2.toList⟩
          else ms
        | none => ms
      else ms
    convertMonitorLoop task_id duration_pos rest ms2

/-- The `except` handler of convert_to_hls (src/app.py lines 440-447). -/
def convertErrorPath (st : AppState) (task_id msg : String) : AppState :=
  let st1 := setTaskFields st task_id (fun t => { t with status := .error, error_detail := some msg })
  { st1 with events := st1.events ++ [.error_event task_id ("Conversion error: " ++ msg)] }

/-- Environment of one convert_to_hls run: everything the external ffmpeg process decides. -/
structure ConvertEnv where
  /-- the process's exit code. -/
  returncode : Int
  /-- remaining stderr output captured by `communicate()` on failure. -/
  stderr_tail : String
  /-- the stderr lines, abstracted to (time of read, parse_ffmpeg_progress result). -/
  lines : List (ℚ × Option Int)
  /-- `time.time()` before the monitor loop (src/app.py line 398). -/
  t0 : ℚ
  deriving DecidableEq, Repr

/-- Result of one convert_to_hls run. -/
structure HlsRun where
  state : AppState
  /-- the ordered list of values written to the task's `status` field. -/
  writes : List Status
  /-- whether the ffmpeg subprocess was launched. -/
  ffmpegRan : Bool
  /-- the stream-map arguments handed to ffmpeg. -/
  mapArgs : List String
  deriving DecidableEq, Repr

/-- convert_to_hls (src/app.py lines 323-447), the transcode stage, run sequentially.
When the task id is absent the function raises and its own except handler raises a
KeyError in turn, so nothing is written.  When the downloaded file is gone it goes
straight to `error`.  Otherwise it transitions `converting`, runs the process and ends
`completed` or `error` according to the exit code. -/
def convert_to_hls (st : AppState) (task_id : String) (selected : Selection)
    (counts : StreamCounts) (env : ConvertEnv) : HlsRun :=
  match tasksLookup st.tasks task_id with
  | none => ⟨st, [], false, []⟩
  | some task =>
    match task.downloaded_file with
    | none => ⟨convertErrorPath st task_id "Downloaded file not found", [.error], false, []⟩
    | some input_file =>
      if st.disk.contains input_file then
        let st1 := setTaskFields st task_id (fun t => { t with status := .converting, progress := 0 })
        let hls_dir := "hls_output/" ++ task_id
        let playlist_file := hls_dir ++ "/playlist.m3u8"
        let mapArgs := buildMapArgs selected counts
        let duration_seconds : ℚ :=
          match task.streams with
          | some sd => match sd.duration with
            | some d => d
            | none => 0
          | none => 0
        let ms := convertMonitorLoop task_id (decide (0 < duration_seconds)) env.lines
          ⟨env.t0, st1.progress_cache, []⟩
        let st2 := { st1 with progress_cache := ms.cache, events := st1.events ++ ms.events }
        if env.returncode = 0 then
          let st3 := { st2 with
            disk := (st2.disk.filter (fun p => ¬ p = input_file)) ++
              [playlist_file, hls_dir ++ "/master.m3u8"] }
          let st4 := setTaskFields st3 task_id (fun t =>
            { t with status := .completed, hls_path := some task_id,
                     playlist_url := some ("/hls/" ++ task_id ++ "/playlist.m3u8") })
          ⟨{ st4 with events := st4.events ++
              [.conversion_complete task_id ("/hls/" ++ task_id ++ "/playlist.m3u8")
                "Conversion completed successfully!"] },
           [.converting, .completed], true, mapArgs⟩
        else
          ⟨convertErrorPath st2 task_id ("FFmpeg error: " ++ env.stderr_tail),
           [.converting, .error], true, mapArgs⟩
      else ⟨convertErrorPath st task_id "Downloaded file not found", [.error], false, []⟩

/-- Outcome of the /convert route handler. -/
inductive ConvertResult where
  | ok
  | err_no_task_id
  | err_not_found
  | err_not_ready
  deriving DecidableEq, Repr

/-- Result of one /convert call. -/
structure ConvertCall where
  result : ConvertResult
  state : AppState
  writes : List Status
  ffmpegRan : Bool
  deriving DecidableEq, Repr

/-- convert_video, the /convert route handler (src/app.py lines 511-536), with the
spawned convert_to_hls thread run sequentially after the precondition check. -/
def convert_video (st : AppState) (tid : Option String) (selected : Selection)
    (counts : StreamCounts) (env : ConvertEnv) : ConvertCall :=
  match tid with
  | none => ⟨.err_no_task_id, st, [], false⟩
  | some task_id =>
    match tasksLookup st.tasks task_id with
    | none => ⟨.err_not_found, st, [], false⟩
    | some t =>
      if t.status = .ready_for_conversion then
        let r := convert_to_hls st task_id selected counts env
        ⟨.ok, r.state, r.writes, r.ffmpegRan⟩
      else ⟨.err_not_ready, st, [], false⟩

/-- Bool-valued form of the /convert precondition: the request carries a task id, the
task exists, and its status is exactly ready_for_conversion (src/app.py lines 519-526). -/
def readyForConvert (st : AppState) (tid : Option String) : Bool :=
  match tid with
  | none => false
  | some task_id =>
    match tasksLookup st.tasks task_id with
    | none => false
    | some t => t.status = .ready_for_conversion

/-- cleanup_old_tasks (src/app.py lines 72-100).  Evicts every task older than 24 hours
(86400 seconds), removing its downloaded file and its hls output directory from disk,
then deletes the task record and runs `del progress_cache[task_id]` guarded by
`task_id in progress_cache` -- note the key used there is the bare task id although
progress-cache entries are stored under `task_id ++ "_" ++ stage`. -/
def cleanup_old_tasks (st : AppState) (now : ℚ) : AppState :=
  let old := (st.tasks.filter (fun p => 86400 < now - p.2.created_at)).map (fun p => p.1)
  let disk := old.foldl (fun d id =>
    let d1 := match tasksLookup st.tasks id with
      | some t => match t.downloaded_file with
        | some f => d.filter (fun p => ¬ p = f)
        | none => d
      | none => d
    d1.filter (fun p => ¬ (("hls_output/" ++ id).data).isPrefixOf p.data)) st.disk
  { tasks := st.tasks.filter (fun p => ¬ 86400 < now - p.2.created_at),
    progress_cache := old.foldl (fun c id => cacheErase c id) st.progress_cache,
    disk := disk,
    events := st.events }

/-- download_video, the /download route handler (src/app.py lines 479-509): reject a
missing url, otherwise run cleanup_old_tasks and insert a fresh `pending` task with
progress 0; the spawned download_file thread is a separate step. -/
def download_video (st : AppState) (url : Option String) (task_id : String) (now : ℚ) :
    AppState :=
  match url with
  | none => st
  | some u =>
    let st1 := cleanup_old_tasks st now
    let fresh : Task := ⟨task_id, u, .pending, 0, now, none, none, none, none, none, none⟩
    { st1 with tasks := tasksSet st1.tasks task_id fresh }

/-- get_status, the /status route handler (src/app.py lines 538-542). -/
def get_status (st : AppState) (task_id : String) : Option Task :=
  tasksLookup st.tasks task_id

/-- One serialized step of the application: any route handler or spawned stage run with
arbitrary parameters and environment. -/
inductive Step : AppState → AppState → Prop where
  | create (st : AppState) (url : Option String) (id : String) (now : ℚ) :
      Step st (download_video st url id now)
  | download (st : AppState) (id : String) (env : DownloadEnv) :
      Step st (download_file st id env).1
  | convert (st : AppState) (tid : Option String) (sel : Selection) (counts : StreamCounts)
      (env : ConvertEnv) : Step st (convert_video st tid sel counts env).state
  | sweep (st : AppState) (now : ℚ) : Step st (cleanup_old_tasks st now)

/-- States reachable from interpreter start by serialized handler runs. -/
inductive Reachable : AppState → Prop where
  | init : Reachable initState
  | step {s s' : AppState} : Reachable s → Step s s' → Reachable s'

/-- Where one /convert call stands: before its status check (src/app.py line 525), after
passing the check with its success response sent and its thread spawned, after its thread
wrote `converting` (src/app.py line 334), or rejected by the check. -/
inductive CallPhase where
  | before_check
  | spawned
  | finished
  | rejected
  deriving DecidableEq, Repr

/-- Shared job status plus the phases of two concurrent /convert calls on the same task. -/
structure ConvState where
  status : Status
  a : CallPhase
  b : CallPhase
  deriving DecidableEq, Repr

/-- One atomic action of call `a` (when `which` is true) or call `b`.  The status
comparison and the `converting` write are separate atomic actions, exactly as in the
source: the check happens in the request handler, the write in the spawned thread. -/
def stepConv (which : Bool) (s : ConvState) : ConvState :=
  if which then
    match s.a with
    | .before_check =>
      if s.status = .ready_for_conversion then { s with a := .spawned }
      else { s with a := .rejected }
    | .spawned => { s with status := .converting, a := .finished }
    | _ => s
  else
    match s.b with
    | .before_check =>
      if s.status = .ready_for_conversion then { s with b := .spawned }
      else { s with b := .rejected }
    | .spawned => { s with status := .converting, b := .finished }
    | _ => s

/-- Run an interleaving: each list entry says which call acts next. -/
def runSched : List Bool → ConvState → ConvState
  | [], s => s
  | w :: ws, s => runSched ws (stepConv w s)

/-- A call succeeded when its status check passed (its handler returned `success`). -/
def callSucceeded : CallPhase → Bool
  | .spawned => true
  | .finished => true
  | _ => false

/-- Both calls pending on a task that is ready for conversion. -/
def convInit : ConvState := ⟨.ready_for_conversion, .before_check, .before_check⟩

/-- A fresh pending task, as /download creates it. -/
def taskPend : Task := ⟨"t1", "u", .pending, 0, 0, none, none, none, none, none, none⟩

/-- State holding only the fresh pending task. -/
def stPend : AppState := ⟨[("t1", taskPend)], [], [], []⟩

/-- A benign download environment: HEAD gave no length, the GET succeeds with no chunks,
and the probe parses a 60-second file. -/
def envW : DownloadEnv := ⟨0, true, "", [], 0, 0, some ⟨some 60⟩⟩

/-- A task that finished its analyze stage. -/
def taskReady : Task :=
  ⟨"t2", "u", .ready_for_conversion, 0, 0, some "uploads/t2.mkv", some "t2.mkv",
    some ⟨some 60⟩, none, none, none⟩

/-- State holding the ready task with its downloaded file on disk. -/
def stReady : AppState := ⟨[("t2", taskReady)], [], ["uploads/t2.mkv"], []⟩

/-- A convert environment whose ffmpeg run exits 0 without stderr lines. -/
def cenvW : ConvertEnv := ⟨0, "", [], 0⟩

/-- The spec's worked selection: one video, audio at global index 2, subtitle at global
index 4. -/
def selW : Selection := ⟨[0], [2], [4]⟩

/-- The spec's worked counts: one video stream and two audio streams. -/
def countsW : StreamCounts := ⟨1, 2⟩

/-- A completed task old enough to be swept. -/
def sweepTask : Task :=
  ⟨"t1", "u", .completed, 0, 0, some "uploads/t1.mkv", some "t1.mkv", none, none,
    some "t1", some "/hls/t1/playlist.m3u8"⟩

/-- State holding the old task, its artifacts, and one progress-cache entry stored under
its `(task id, stage)` key. -/
def sweepState : AppState :=
  ⟨[("t1", sweepTask)], [("t1_downloading", (10, 50))],
    ["uploads/t1.mkv", "hls_output/t1/playlist.m3u8"], []⟩

/-- Every task record in the list carries progress 0. -/
def progressZero (l : List (String × Task)) : Prop := ∀ p ∈ l, p.2.progress = 0

end VidDL

namespace VidDL

theorem pyParseInt_error_eq {cs : List Char} {e : PyErr} (h : pyParseInt cs = .error e) :
    e = .valueError := by
  simp only [pyParseInt] at h
  split at h
  · cases h
  · injection h with h2
    exact h2.symm

theorem pyDivQ_of_ne {a b : Int} (hb : ¬ b = 0) : pyDivQ a b = .ok ((a : ℚ) / (b : ℚ)) := by
  simp [pyDivQ, hb]

/-- C7 (corrected): on the `0/0` sentinel and on any zero denominator the frame-rate
extraction leaves the fps field unset (`None`); for every input string it either leaves
fps unset, sets a formatted value, or raises a ValueError -- it never raises a
ZeroDivisionError. -/
theorem C7_fps_zero_denominator_amended :
    extract_fps "0/0" = .ok none ∧
    extract_fps "30/0" = .ok none ∧
    ∀ s : String, extract_fps s = .ok none ∨ (∃ v, extract_fps s = .ok (some v)) ∨
      extract_fps s = .error .valueError := by
  refine ⟨by with_unfolding_all decide, by with_unfolding_all decide, ?_⟩
  intro s
  unfold extract_fps
  split
  · rcases hsp : splitOnChar '/' s.data with _ | ⟨ns, _ | ⟨ds, _ | ⟨x, tl⟩⟩⟩
    · dsimp only
      right; right; rfl
    · dsimp only
      right; right; rfl
    · dsimp only
      cases hds : pyParseInt ds with
      | error e =>
        dsimp only
        right; right
        rw [pyParseInt_error_eq hds]
      | ok den =>
        dsimp only
        by_cases hden : den = 0
        · rw [if_neg (not_not_intro hden)]
          left; rfl
        · rw [if_pos hden]
          cases hns : pyParseInt ns with
          | error e =>
            dsimp only
            right; right
            rw [pyParseInt_error_eq hns]
          | ok num =>
            dsimp only
            rw [pyDivQ_of_ne hden]
            right; left
            exact ⟨_, rfl⟩
    · dsimp only
      right; right; rfl
  · left; rfl

/-- C7 counterexample: the claim says the input ratio `0/0` yields the string
"unknown"; the code instead leaves the fps field unset (`None`). -/
theorem C7_counterexample :
    extract_fps "0/0" = .ok none ∧ ¬ extract_fps "0/0" = .ok (some "unknown") := by
  with_unfolding_all decide

/-- C6 counterexample: at a bit rate of exactly 1,000,000 -- which the claim places in
the Mbps class, where one-decimal formatting would read "1.0 Mbps" -- the code takes the
kbps branch (its test is the strict `bitrate > 1000000`) and formats "1000 kbps". -/
theorem C6_counterexample :
    1000000 ≥ 1000000 ∧
    formatFixed ((1000000 : ℚ) / 1000000) 1 ++ " Mbps" = "1.0 Mbps" ∧
    formatVideoBitrate 1000000 = "1000 kbps" :=
  ⟨le_refl _, by with_unfolding_all decide, by with_unfolding_all decide⟩

/-- C6 (corrected): the bitrate string is in Mbps with one fixed decimal exactly when
the value is strictly greater than 1,000,000 and in kbps with zero decimals otherwise;
1500000 formats as "1.5 Mbps" and 128000 as "128 kbps". -/
theorem C6_bitrate_formatting_amended (b : Nat) :
    (1000000 < b → ∃ x, formatVideoBitrate b = x ++ " Mbps") ∧
    (b ≤ 1000000 → ∃ x, formatVideoBitrate b = x ++ " kbps") ∧
    formatVideoBitrate 1500000 = "1.5 Mbps" ∧
    formatVideoBitrate 128000 = "128 kbps" := by
  refine ⟨?_, ?_, by with_unfolding_all decide, by with_unfolding_all decide⟩
  · intro h
    exact ⟨_, by rw [formatVideoBitrate, if_pos h]⟩
  · intro h
    exact ⟨_, by rw [formatVideoBitrate, if_neg (by omega)]⟩

theorem C6_witness :
    (∃ x, formatVideoBitrate 1500000 = x ++ " Mbps") ∧
    (∃ x, formatVideoBitrate 128000 = x ++ " kbps") :=
  ⟨(C6_bitrate_formatting_amended 1500000).1 (by omega),
   (C6_bitrate_formatting_amended 128000).2.1 (by omega)⟩

/-- C5 (confirmed): with a cache entry `(t0, p0)` present for the `(task, stage)` key,
the notifier suppresses the update (emits nothing and leaves the cache untouched) exactly
when less than 1 second has elapsed since the last emitted update and the percent has
moved by less than 5 points; a delta of at least 5 inside the 1-second window is still
emitted. -/
theorem C5_throttle_iff (cache : List (String × ℚ × Int)) (now t0 : ℚ) (p p0 : Int)
    (tid stage msg : String)
    (h : cacheLookup cache (cacheKey tid stage) = some (t0, p0)) :
    ((throttled_progress_update cache now tid stage p msg).2 = none ↔
      now - t0 < 1 ∧ (p - p0).natAbs < 5) ∧
    (now - t0 < 1 ∧ (p - p0).natAbs < 5 →
      throttled_progress_update cache now tid stage p msg = (cache, none)) ∧
    (now - t0 < 1 → 5 ≤ (p - p0).natAbs →
      (throttled_progress_update cache now tid stage p msg).2 =
        some (.progress_update tid stage p msg)) := by
  simp only [throttled_progress_update, PROGRESS_UPDATE_INTERVAL, h]
  by_cases hc : now - t0 < 1 ∧ (p - p0).natAbs < 5
  · rw [if_pos hc]
    exact ⟨by simp [hc], fun _ => rfl, fun h1 h2 => absurd hc.2 (by omega)⟩
  · rw [if_neg hc]
    exact ⟨by simp [hc], fun hx => absurd hx hc, fun _ _ => rfl⟩

theorem C5_witness :
    (throttled_progress_update [("t_downloading", (0, 50))] (1/2) "t" "downloading" 52 "m").2
      = none ∧
    (throttled_progress_update [("t_downloading", (0, 50))] (1/2) "t" "downloading" 57 "m").2
      = some (.progress_update "t" "downloading" 57 "m") :=
  ⟨(C5_throttle_iff [("t_downloading", (0, 50))] (1/2) 0 52 50 "t" "downloading" "m"
      (by with_unfolding_all decide)).1.mpr
    (by constructor
        · with_unfolding_all decide
        · decide),
   (C5_throttle_iff [("t_downloading", (0, 50))] (1/2) 0 57 50 "t" "downloading" "m"
      (by with_unfolding_all decide)).2.2
    (by with_unfolding_all decide) (by decide)⟩

theorem mem_videoMapArgs {l : List Int} {i : Int} (h : i ∈ l) :
    ("0:v:" ++ toString i) ∈ videoMapArgs l := by
  induction l with
  | nil => cases h
  | cons x xs ih =>
    rcases List.mem_cons.mp h with rfl | h2
    · exact List.mem_cons_of_mem _ (List.mem_cons_self _ _)
    · exact List.mem_cons_of_mem _ (List.mem_cons_of_mem _ (ih h2))

theorem mem_audioMapArgs (vc : Int) {l : List Int} {i : Int} (h : i ∈ l) :
    ("0:a:" ++ toString (i - vc)) ∈ audioMapArgs vc l := by
  induction l with
  | nil => cases h
  | cons x xs ih =>
    rcases List.mem_cons.mp h with rfl | h2
    · exact List.mem_cons_of_mem _ (List.mem_cons_self _ _)
    · exact List.mem_cons_of_mem _ (List.mem_cons_of_mem _ (ih h2))

theorem mem_subtitleMapArgs (vc ac : Int) {l : List Int} {i : Int} (h : i ∈ l) :
    ("0:s:" ++ toString (i - vc - ac)) ∈ subtitleMapArgs vc ac l := by
  induction l with
  | nil => cases h
  | cons x xs ih =>
    rcases List.mem_cons.mp h with rfl | h2
    · exact List.mem_cons_of_mem _ (List.mem_cons_self _ _)
    · exact List.mem_cons_of_mem _ (List.mem_cons_of_mem _ (ih h2))

theorem mem_buildMapArgs_video (sel : Selection) (counts : StreamCounts) {i : Int}
    (h : i ∈ sel.video) : ("0:v:" ++ toString i) ∈ buildMapArgs sel counts := by
  have hm : ("0:v:" ++ toString i) ∈
      videoMapArgs sel.video ++ audioMapArgs counts.video sel.audio ++
        subtitleMapArgs counts.video counts.audio sel.subtitle :=
    List.mem_append_left _ (List.mem_append_left _ (mem_videoMapArgs h))
  unfold buildMapArgs
  rw [if_neg (List.ne_nil_of_mem hm)]
  exact hm

theorem mem_buildMapArgs_audio (sel : Selection) (counts : StreamCounts) {i : Int}
    (h : i ∈ sel.audio) :
    ("0:a:" ++ toString (i - counts.video)) ∈ buildMapArgs sel counts := by
  have hm : ("0:a:" ++ toString (i - counts.video)) ∈
      videoMapArgs sel.video ++ audioMapArgs counts.video sel.audio ++
        subtitleMapArgs counts.video counts.audio sel.subtitle :=
    List.mem_append_left _ (List.mem_append_right _ (mem_audioMapArgs counts.video h))
  unfold buildMapArgs
  rw [if_neg (List.ne_nil_of_mem hm)]
  exact hm

theorem mem_buildMapArgs_subtitle (sel : Selection) (counts : StreamCounts) {i : Int}
    (h : i ∈ sel.subtitle) :
    ("0:s:" ++ toString (i - counts.video - counts.audio)) ∈ buildMapArgs sel counts := by
  have hm : ("0:s:" ++ toString (i - counts.video - counts.audio)) ∈
      videoMapArgs sel.video ++ audioMapArgs counts.video sel.audio ++
        subtitleMapArgs counts.video counts.audio sel.subtitle :=
    List.mem_append_right _ (mem_subtitleMapArgs counts.video counts.audio h)
  unfold buildMapArgs
  rw [if_neg (List.ne_nil_of_mem hm)]
  exact hm

/-- C4 (confirmed): the command builder maps a selected video global index i to the
kind-relative argument `0:v:i`, an audio global index i to `0:a:(i - videoCount)`, a
subtitle global index i to `0:s:(i - videoCount - audioCount)`; with videoCount 1 and
audioCount 2, global audio index 2 yields relative audio index 1 and global subtitle
index 4 yields relative subtitle index 1. -/
theorem C4_global_to_relative (sel : Selection) (counts : StreamCounts) :
    (∀ i ∈ sel.video, ("0:v:" ++ toString i) ∈ buildMapArgs sel counts) ∧
    (∀ i ∈ sel.audio, ("0:a:" ++ toString (i - counts.video)) ∈ buildMapArgs sel counts) ∧
    (∀ i ∈ sel.subtitle,
      ("0:s:" ++ toString (i - counts.video - counts.audio)) ∈ buildMapArgs sel counts) ∧
    buildMapArgs ⟨[], [2], []⟩ ⟨1, 2⟩ = ["-map", "0:a:1"] ∧
    buildMapArgs ⟨[], [], [4]⟩ ⟨1, 2⟩ = ["-map", "0:s:1"] :=
  ⟨fun _ h => mem_buildMapArgs_video sel counts h,
   fun _ h => mem_buildMapArgs_audio sel counts h,
   fun _ h => mem_buildMapArgs_subtitle sel counts h,
   by decide, by decide⟩

theorem C4_witness :
    ("0:a:" ++ toString ((2 : Int) - 1)) ∈ buildMapArgs selW countsW ∧
    ("0:s:" ++ toString ((4 : Int) - 1 - 2)) ∈ buildMapArgs selW countsW :=
  ⟨(C4_global_to_relative selW countsW).2.1 2 (by decide),
   (C4_global_to_relative selW countsW).2.2.1 4 (by decide)⟩

theorem stepConv_locked (w : Bool) (s : ConvState) (h1 : s.status = .converting)
    (h2 : s.a = .finished) (h3 : s.b = .before_check ∨ s.b = .rejected) :
    (stepConv w s).status = .converting ∧ (stepConv w s).a = .finished ∧
      ((stepConv w s).b = .before_check ∨ (stepConv w s).b = .rejected) := by
  cases w
  · rcases h3 with h3 | h3 <;> simp [stepConv, h1, h2, h3]
  · rcases h3 with h3 | h3 <;> simp [stepConv, h1, h2, h3]

theorem runSched_locked (rest : List Bool) (s : ConvState) (h1 : s.status = .converting)
    (h2 : s.a = .finished) (h3 : s.b = .before_check ∨ s.b = .rejected) :
    (runSched rest s).a = .finished ∧
      ((runSched rest s).b = .before_check ∨ (runSched rest s).b = .rejected) := by
  induction rest generalizing s with
  | nil => exact ⟨h2, h3⟩
  | cons w ws ih =>
    have hstep := stepConv_locked w s h1 h2 h3
    exact ih (stepConv w s) hstep.1 hstep.2.1 hstep.2.2

/-- C3 counterexample: the status comparison (request handler) and the `converting`
write (spawned thread) are separate atomic actions, so in the interleaving where both
calls pass their check before either thread runs, both calls succeed -- the claim's
"exactly one call succeeds" fails.  After only the two checks, both calls have already
been answered with success while the status is still ready_for_conversion. -/
theorem C3_counterexample :
    callSucceeded (runSched [true, false, true, false] convInit).a = true ∧
    callSucceeded (runSched [true, false, true, false] convInit).b = true ∧
    (runSched [true, false] convInit).a = .spawned ∧
    (runSched [true, false] convInit).b = .spawned ∧
    (runSched [true, false] convInit).status = .ready_for_conversion := by decide

/-- C3 (corrected): the check-and-transition is not atomic, so two overlapping calls can
both succeed; what holds is the serialized property: whenever the first call's check and
transition both complete before the second call acts, the first call succeeds and the
second is rejected, however execution continues. -/
theorem C3_serialized_single_winner (rest : List Bool) :
    callSucceeded (runSched ([true, true] ++ rest) convInit).a = true ∧
    callSucceeded (runSched ([true, true] ++ rest) convInit).b = false := by
  have h : runSched ([true, true] ++ rest) convInit =
      runSched rest ⟨.converting, .finished, .before_check⟩ := rfl
  rw [h]
  obtain ⟨ha, hb⟩ :=
    runSched_locked rest ⟨.converting, .finished, .before_check⟩ rfl rfl (Or.inl rfl)
  refine ⟨by rw [ha]; rfl, ?_⟩
  rcases hb with hb | hb <;> rw [hb] <;> rfl

theorem downloadChunkStep_ok (tid : String) (total : Nat) (ls : LoopState) (now : ℚ)
    (len : Nat) : ∃ ls2, downloadChunkStep tid total ls now len = .ok ls2 := by
  unfold downloadChunkStep
  split
  · exact ⟨_, rfl⟩
  · split
    · split
      · rename_i hpos
        simp only [pyDivNat, if_neg (Nat.pos_iff_ne_zero.mp hpos)]
        exact ⟨_, rfl⟩
      · exact ⟨_, rfl⟩
    · exact ⟨_, rfl⟩

theorem downloadChunkStep_total0 (tid : String) (ls : LoopState) (now : ℚ) (len : Nat) :
    ∃ ds lt, downloadChunkStep tid 0 ls now len = .ok ⟨ds, lt, ls.cache, ls.events⟩ := by
  unfold downloadChunkStep
  split
  · exact ⟨ls.downloaded_size, ls.last_progress_time, rfl⟩
  · split
    · rw [if_neg (by omega)]
      exact ⟨_, _, rfl⟩
    · exact ⟨_, _, rfl⟩

theorem downloadLoop_ok (tid : String) (total : Nat) (chunks : List (ℚ × Nat))
    (ls : LoopState) : ∃ ls2, downloadLoop tid total chunks ls = .ok ls2 := by
  induction chunks generalizing ls with
  | nil => exact ⟨ls, rfl⟩
  | cons c rest ih =>
    obtain ⟨now, len⟩ := c
    obtain ⟨ls2, hstep⟩ := downloadChunkStep_ok tid total ls now len
    rw [downloadLoop, hstep]
    exact ih ls2

theorem downloadLoop_total0 (tid : String) (chunks : List (ℚ × Nat)) (ls : LoopState) :
    ∃ ds lt, downloadLoop tid 0 chunks ls = .ok ⟨ds, lt, ls.cache, ls.events⟩ := by
  induction chunks generalizing ls with
  | nil => exact ⟨ls.downloaded_size, ls.last_progress_time, rfl⟩
  | cons c rest ih =>
    obtain ⟨now, len⟩ := c
    obtain ⟨ds, lt, hstep⟩ := downloadChunkStep_total0 tid ls now len
    rw [downloadLoop, hstep]
    obtain ⟨ds2, lt2, h2⟩ := ih ⟨ds, lt, ls.cache, ls.events⟩
    exact ⟨ds2, lt2, h2⟩

/-- C8 (corrected): the download loop never raises a division error for any total size,
and with an unknown total size (0, the value used for an absent content-length header) it
emits no progress events at all -- in particular no percentage-based event, but, against
the claim, no byte-count message either: the byte-count message is only sent together
with a percentage, inside the `total_size > 0` guard. -/
theorem C8_unknown_length_no_events (tid : String) (total : Nat)
    (chunks : List (ℚ × Nat)) (ls : LoopState) :
    (∃ ls2, downloadLoop tid total chunks ls = .ok ls2) ∧
    (∃ ds lt, downloadLoop tid 0 chunks ls = .ok ⟨ds, lt, ls.cache, ls.events⟩) :=
  ⟨downloadLoop_ok tid total chunks ls, downloadLoop_total0 tid chunks ls⟩

/-- C8 counterexample: a 5-byte chunk arriving 2 seconds into a download of unknown
total size -- past the 1-second reporting threshold, so the claim expects a byte-count
progress message -- produces no event at all. -/
theorem C8_counterexample :
    ((1 : ℚ) ≤ 2 - 0) ∧
    downloadLoop "t1" 0 [(2, 5)] ⟨0, 0, [], []⟩ = .ok ⟨5, 2, [], []⟩ := by
  constructor
  · with_unfolding_all decide
  · with_unfolding_all decide

/-- C9 (code bug): sweeping a task older than 24 hours removes its record and its files,
but its progress-cache entries survive: the cleanup deletes the key `"t1"` while the
entries are stored under `task_id ++ "_" ++ stage`, here `"t1_downloading"`.  This
contradicts the claim (and the function's own purpose of preventing memory leaks). -/
theorem C9_cache_survives_sweep :
    (cleanup_old_tasks sweepState 86401).tasks = [] ∧
    (cleanup_old_tasks sweepState 86401).disk = [] ∧
    cacheLookup (cleanup_old_tasks sweepState 86401).progress_cache
      (cacheKey "t1" "downloading") = some (10, 50) := by
  refine ⟨?_, ?_, ?_⟩ <;> with_unfolding_all decide

end VidDL

namespace VidDL

theorem tasksLookup_tasksSet_self (l : List (String × Task)) (k : String) (v : Task) :
    tasksLookup (tasksSet l k v) k = some v := by
  induction l with
  | nil => simp [tasksSet, tasksLookup]
  | cons hd tl ih =>
    obtain ⟨k1, v1⟩ := hd
    by_cases hk : k1 = k
    · simp [tasksSet, hk, tasksLookup]
    · simp [tasksSet, hk, tasksLookup, ih]

theorem mem_tasksSet {l : List (String × Task)} {k : String} {v : Task}
    {p : String × Task} (h : p ∈ tasksSet l k v) : p = (k, v) ∨ p ∈ l := by
  induction l with
  | nil => simpa [tasksSet] using h
  | cons hd tl ih =>
    obtain ⟨k1, v1⟩ := hd
    simp only [tasksSet] at h
    by_cases hk : k1 = k
    · rw [if_pos hk] at h
      rcases List.mem_cons.mp h with h1 | h1
      · exact .inl h1
      · exact .inr (List.mem_cons_of_mem _ h1)
    · rw [if_neg hk] at h
      rcases List.mem_cons.mp h with h1 | h1
      · subst h1
        exact .inr (List.mem_cons_self _ _)
      · rcases ih h1 with h2 | h2
        · exact .inl h2
        · exact .inr (List.mem_cons_of_mem _ h2)

theorem tasksLookup_mem {l : List (String × Task)} {k : String} {t : Task}
    (h : tasksLookup l k = some t) : (k, t) ∈ l := by
  induction l with
  | nil => cases h
  | cons hd tl ih =>
    obtain ⟨k1, v1⟩ := hd
    simp only [tasksLookup] at h
    by_cases hk : k1 = k
    · rw [if_pos hk] at h
      injection h with h2
      rw [← hk, ← h2]
      exact List.mem_cons_self _ _
    · rw [if_neg hk] at h
      exact List.mem_cons_of_mem _ (ih h)

theorem mem_taskUpdate {l : List (String × Task)} {k : String} {f : Task → Task}
    {p : String × Task} (h : p ∈ taskUpdate l k f) :
    p ∈ l ∨ ∃ t, tasksLookup l k = some t ∧ p = (k, f t) := by
  unfold taskUpdate at h
  cases hl : tasksLookup l k with
  | none => rw [hl] at h; exact .inl h
  | some t =>
    rw [hl] at h
    rcases mem_tasksSet h with h1 | h1
    · exact .inr ⟨t, rfl, h1⟩
    · exact .inl h1

theorem progressZero_taskUpdate {l : List (String × Task)} {id : String} {f : Task → Task}
    (h : progressZero l) (hf : ∀ t, t.progress = 0 → (f t).progress = 0) :
    progressZero (taskUpdate l id f) := by
  intro p hp
  rcases mem_taskUpdate hp with h1 | ⟨t, hlk, rfl⟩
  · exact h _ h1
  · exact hf t (h _ (tasksLookup_mem hlk))

theorem progressZero_tasksSet {l : List (String × Task)} {id : String} {v : Task}
    (h : progressZero l) (hv : v.progress = 0) : progressZero (tasksSet l id v) := by
  intro p hp
  rcases mem_tasksSet hp with rfl | h1
  · exact hv
  · exact h _ h1

theorem progressZero_filter {l : List (String × Task)} {q : String × Task → Bool}
    (h : progressZero l) : progressZero (l.filter q) :=
  fun p hp => h p (List.mem_of_mem_filter hp)

theorem progressZero_cleanup (st : AppState) (now : ℚ) (h : progressZero st.tasks) :
    progressZero (cleanup_old_tasks st now).tasks :=
  progressZero_filter h

theorem progressZero_download_video (st : AppState) (url : Option String) (id : String)
    (now : ℚ) (h : progressZero st.tasks) :
    progressZero (download_video st url id now).tasks := by
  unfold download_video
  cases url with
  | none => exact h
  | some u =>
    dsimp only
    exact progressZero_tasksSet (progressZero_cleanup st now h) rfl

theorem progressZero_download_file (st : AppState) (id : String) (env : DownloadEnv)
    (h : progressZero st.tasks) : progressZero (download_file st id env).1.tasks := by
  unfold download_file
  cases htl : tasksLookup st.tasks id with
  | none => exact h
  | some t =>
    dsimp only
    split
    · split
      · exact progressZero_taskUpdate (progressZero_taskUpdate h (fun _ _ => rfl))
          (fun _ ht => ht)
      · split
        · exact progressZero_taskUpdate (progressZero_taskUpdate
            (progressZero_taskUpdate h (fun _ _ => rfl)) (fun _ _ => rfl)) (fun _ ht => ht)
        · exact progressZero_taskUpdate (progressZero_taskUpdate
            (progressZero_taskUpdate h (fun _ _ => rfl)) (fun _ _ => rfl)) (fun _ ht => ht)
    · exact progressZero_taskUpdate (progressZero_taskUpdate h (fun _ _ => rfl))
        (fun _ ht => ht)

theorem progressZero_convert_to_hls (st : AppState) (id : String) (sel : Selection)
    (counts : StreamCounts) (env : ConvertEnv) (h : progressZero st.tasks) :
    progressZero (convert_to_hls st id sel counts env).state.tasks := by
  unfold convert_to_hls
  cases htl : tasksLookup st.tasks id with
  | none => exact h
  | some t =>
    dsimp only
    cases hdf : t.downloaded_file with
    | none => exact progressZero_taskUpdate h (fun _ ht => ht)
    | some f =>
      dsimp only
      split
      · split
        · exact progressZero_taskUpdate (progressZero_taskUpdate h (fun _ _ => rfl))
            (fun _ ht => ht)
        · exact progressZero_taskUpdate (progressZero_taskUpdate h (fun _ _ => rfl))
            (fun _ ht => ht)
      · exact progressZero_taskUpdate h (fun _ ht => ht)

theorem progressZero_convert_video (st : AppState) (tid : Option String) (sel : Selection)
    (counts : StreamCounts) (env : ConvertEnv) (h : progressZero st.tasks) :
    progressZero (convert_video st tid sel counts env).state.tasks := by
  unfold convert_video
  cases tid with
  | none => exact h
  | some id =>
    dsimp only
    cases htl : tasksLookup st.tasks id with
    | none => exact h
    | some t =>
      dsimp only
      split
      · exact progressZero_convert_to_hls st id sel counts env h
      · exact h

/-- C10 (confirmed): in every reachable application state, every task record carries
progress 0 -- it is created 0, rewritten to 0 at stage transitions, and no operation
writes a non-zero value, so every status query reports progress 0. -/
theorem C10_progress_always_zero (st : AppState) (h : Reachable st) :
    ∀ id t, tasksLookup st.tasks id = some t → t.progress = 0 := by
  have hz : progressZero st.tasks := by
    induction h with
    | init => intro p hp; cases hp
    | step hr hs ih =>
      cases hs with
      | create url id now => exact progressZero_download_video _ url id now ih
      | download id env => exact progressZero_download_file _ id env ih
      | convert tid sel counts env => exact progressZero_convert_video _ tid sel counts env ih
      | sweep now => exact progressZero_cleanup _ now ih
  intro id t hlk
  exact hz _ (tasksLookup_mem hlk)

theorem C10_witness :
    (⟨"t1", "u", .pending, 0, 0, none, none, none, none, none, none⟩ : Task).progress = 0 :=
  C10_progress_always_zero (download_video initState (some "u") "t1" 0)
    (Reachable.step Reachable.init (Step.create initState (some "u") "t1" 0))
    "t1" ⟨"t1", "u", .pending, 0, 0, none, none, none, none, none, none⟩
    (by with_unfolding_all decide)

theorem convert_to_hls_started (st : AppState) (task_id : String) (sel : Selection)
    (counts : StreamCounts) (env : ConvertEnv) (t : Task) (f : String)
    (ht : tasksLookup st.tasks task_id = some t) (hf : t.downloaded_file = some f)
    (hd : st.disk.contains f = true) :
    (convert_to_hls st task_id sel counts env).writes.head? = some .converting ∧
    (convert_to_hls st task_id sel counts env).ffmpegRan = true := by
  unfold convert_to_hls
  rw [ht]
  dsimp only
  rw [hf]
  dsimp only
  rw [if_pos hd]
  split
  · exact ⟨rfl, rfl⟩
  · exact ⟨rfl, rfl⟩

theorem convert_video_ready (st : AppState) (id : String) (sel : Selection)
    (counts : StreamCounts) (env : ConvertEnv) (t : Task)
    (ht : tasksLookup st.tasks id = some t) (hs : t.status = .ready_for_conversion) :
    convert_video st (some id) sel counts env =
      ⟨.ok, (convert_to_hls st id sel counts env).state,
        (convert_to_hls st id sel counts env).writes,
        (convert_to_hls st id sel counts env).ffmpegRan⟩ := by
  unfold convert_video
  dsimp only
  rw [ht]
  dsimp only
  rw [if_pos hs]

/-- C2 (confirmed): a /convert call is rejected with an error and leaves the whole
application state unchanged unless the task exists and its status is exactly
ready_for_conversion; when it is ready (and its downloaded file exists, which the
download stage guarantees), the call succeeds, the first status write is `converting`,
and the transcode process is started. -/
theorem C2_convert_precondition (st : AppState) (tid : Option String) (sel : Selection)
    (counts : StreamCounts) (env : ConvertEnv) :
    (readyForConvert st tid = false →
      ¬ (convert_video st tid sel counts env).result = .ok ∧
      (convert_video st tid sel counts env).state = st) ∧
    (∀ id t f, tid = some id → tasksLookup st.tasks id = some t →
      t.status = .ready_for_conversion → t.downloaded_file = some f →
      st.disk.contains f = true →
      (convert_video st tid sel counts env).result = .ok ∧
      (convert_video st tid sel counts env).writes.head? = some .converting ∧
      (convert_video st tid sel counts env).ffmpegRan = true) := by
  constructor
  · intro hrdy
    unfold readyForConvert at hrdy
    unfold convert_video
    cases tid with
    | none =>
      refine ⟨?_, rfl⟩
      dsimp only
      simp
    | some id =>
      dsimp only at hrdy ⊢
      cases hl : tasksLookup st.tasks id with
      | none =>
        dsimp only
        refine ⟨by simp, rfl⟩
      | some t =>
        rw [hl] at hrdy
        dsimp only at hrdy ⊢
        rw [if_neg (by simpa using hrdy)]
        refine ⟨by simp, rfl⟩
  · intro id t f htid hlk hst hfile hdisk
    subst htid
    rw [convert_video_ready st id sel counts env t hlk hst]
    obtain ⟨h1, h2⟩ := convert_to_hls_started st id sel counts env t f hlk hfile hdisk
    exact ⟨rfl, h1, h2⟩

theorem C2_witness :
    ¬ (convert_video stPend (some "t1") selW countsW cenvW).result = .ok ∧
    (convert_video stPend (some "t1") selW countsW cenvW).state = stPend ∧
    (convert_video stReady (some "t2") selW countsW cenvW).result = .ok ∧
    (convert_video stReady (some "t2") selW countsW cenvW).writes.head? = some .converting ∧
    (convert_video stReady (some "t2") selW countsW cenvW).ffmpegRan = true :=
  ⟨((C2_convert_precondition stPend (some "t1") selW countsW cenvW).1
      (by with_unfolding_all decide)).1,
   ((C2_convert_precondition stPend (some "t1") selW countsW cenvW).1
      (by with_unfolding_all decide)).2,
   ((C2_convert_precondition stReady (some "t2") selW countsW cenvW).2 "t2" taskReady
      "uploads/t2.mkv" rfl (by with_unfolding_all decide) rfl rfl
      (by with_unfolding_all decide)).1,
   ((C2_convert_precondition stReady (some "t2") selW countsW cenvW).2 "t2" taskReady
      "uploads/t2.mkv" rfl (by with_unfolding_all decide) rfl rfl
      (by with_unfolding_all decide)).2.1,
   ((C2_convert_precondition stReady (some "t2") selW countsW cenvW).2 "t2" taskReady
      "uploads/t2.mkv" rfl (by with_unfolding_all decide) rfl rfl
      (by with_unfolding_all decide)).2.2⟩

/-- C1 (confirmed): job creation writes the fresh task's status as `pending`; run on a
pending task, the download stage's status writes extend it along the allowed forward
path (pending, downloading, analyzing, ready_for_conversion, with the non-terminal to
error edge on failure); run on a ready task, the conversion stage's writes likewise only
follow allowed edges (converting, then completed or error) -- no skip, no backward move,
no re-entry. -/
theorem download_file_writes (st : AppState) (task_id : String) (env : DownloadEnv)
    (t : Task) (ht : tasksLookup st.tasks task_id = some t) :
    (download_file st task_id env).2 = [.downloading, .error] ∨
    (download_file st task_id env).2 = [.downloading, .analyzing, .error] ∨
    (download_file st task_id env).2 = [.downloading, .analyzing, .ready_for_conversion] := by
  unfold download_file
  rw [ht]
  dsimp only
  split
  · split
    · left; rfl
    · split
      · right; right; rfl
      · right; left; rfl
  · left; rfl

theorem convert_to_hls_writes (st : AppState) (task_id : String) (sel : Selection)
    (counts : StreamCounts) (env : ConvertEnv) (t : Task)
    (ht : tasksLookup st.tasks task_id = some t) :
    (convert_to_hls st task_id sel counts env).writes = [.error] ∨
    (convert_to_hls st task_id sel counts env).writes = [.converting, .completed] ∨
    (convert_to_hls st task_id sel counts env).writes = [.converting, .error] := by
  unfold convert_to_hls
  rw [ht]
  dsimp only
  cases hdf : t.downloaded_file with
  | none => left; rfl
  | some f =>
    dsimp only
    split
    · split
      · right; left; rfl
      · right; right; rfl
    · left; rfl

theorem C1_status_forward_path (st : AppState) (task_id u : String) (now : ℚ)
    (env : DownloadEnv) (sel : Selection) (counts : StreamCounts) (cenv : ConvertEnv)
    (t : Task) (ht : tasksLookup st.tasks task_id = some t) :
    ((tasksLookup (download_video st (some u) task_id now).tasks task_id).map Task.status
      = some .pending) ∧
    (t.status = .pending →
      chainOK (t.status :: (download_file st task_id env).2) = true) ∧
    (t.status = .ready_for_conversion →
      chainOK (t.status :: (convert_to_hls st task_id sel counts cenv).writes) = true) := by
  refine ⟨?_, ?_, ?_⟩
  · unfold download_video
    dsimp only
    rw [tasksLookup_tasksSet_self]
    rfl
  · intro hp
    rw [hp]
    rcases download_file_writes st task_id env t ht with h | h | h <;> rw [h] <;> decide
  · intro hr
    rw [hr]
    rcases convert_to_hls_writes st task_id sel counts cenv t ht with h | h | h <;>
      rw [h] <;> decide

theorem C1_witness :
    chainOK (Status.pending :: (download_file stPend "t1" envW).2) = true ∧
    chainOK (Status.ready_for_conversion ::
      (convert_to_hls stReady "t2" selW countsW cenvW).writes) = true :=
  ⟨(C1_status_forward_path stPend "t1" "u" 0 envW selW countsW cenvW taskPend
      (by with_unfolding_all decide)).2.1 rfl,
   (C1_status_forward_path stReady "t2" "u" 0 envW selW countsW cenvW taskReady
      (by with_unfolding_all decide)).2.2 rfl⟩

end VidDL
